import Mathlib

/-!
Shallow embedding of the goal-directed multi-agent orchestration core
(`superagentx`): the Engine tool-dispatch step (`engine.py`), the Agent
goal-verification retry loop (`agent.py`) and the Pipe orchestration
(`agentxpipe.py`), together with the exception values those functions
raise.  External collaborators (the model port, `json.loads`, `yaml.dump`,
`uuid.uuid4`) are modelled as explicit oracle parameters; Python `None`
is modelled with `Option`, Python exceptions with `Except PyExn`.
-/

namespace SuperAgentX

/-- Modelled from the spec: the GoalResult record
(`superagentx/agent/result.py` is not under `src/`).  Fields follow the
spec data model: name, agent_id, reason, result, is_goal_satisfied
(bool or unset), error, content.  Result payloads are modelled as opaque
strings. -/
structure GoalResult where
  name : String
  agentId : String
  reason : Option String
  result : Option String
  isGoalSatisfied : Option Bool
  error : Option String
  content : Option String
deriving Repr, DecidableEq

/-- A GoalResult with only name and agent_id set, all other fields at
their unset defaults. -/
def GoalResult.base (name agentId : String) : GoalResult :=
  ⟨name, agentId, none, none, none, none, none⟩

/-- Python exceptions raised by the embedded code.  `stopSuperAgentX`
models the early-stop signal `StopSuperAgentX(message, goal_result)`. -/
inductive PyExn where
  | attributeError (attr : String)
  | typeError
  | stopSuperAgentX (message : String) (goalResult : GoalResult)
  | invalidHandler (handler : String)
  | toolError (message : String)
deriving Repr, DecidableEq

/-- Python truthiness of an `Option Bool` value (`None`/`False` falsy,
`True` truthy), as tested by `if _goal_result.is_goal_satisfied:`. -/
def truthyOptBool : Option Bool → Bool
  | some true => true
  | _ => false

/-! ## Agent._verify_goal (src/superagentx/agent/agent.py, lines 144-193)

The judge response returned by `self.llm.achat_completion` is modelled
by `ChatResponse`; `json.loads` followed by `GoalResult(**__res)` is
modelled by a `jsonLoads` oracle classifying the stripped text. -/

/-- A `choice.message` object of the judge response: its `content`
attribute may be `None`. -/
structure ChoiceMessage where
  content : Option String
deriving Repr, DecidableEq

/-- A `choice` of the judge response; its `message` attribute may be
`None` (the code guards `if choice and choice.message`). -/
structure Choice where
  message : Option ChoiceMessage
deriving Repr, DecidableEq

/-- The judge chat-completion response: a `choices` list whose entries
may themselves be `None`. -/
structure ChatResponse where
  choices : List (Option Choice)
deriving Repr, DecidableEq

/-- Outcome of `json.loads(text)` followed by
`GoalResult(name=..., agent_id=..., **__res)`:
`decodeErr` models a raised `JSONDecodeError` (the only exception the
source catches); `ok` models a parse producing a mapping whose keyword
arguments construct a GoalResult with the given field values; `raises`
models text that parses as valid JSON but whose `**` expansion or
validation raises (e.g. `"[]"` parses to a list, and
`GoalResult(**[])` raises `TypeError`). -/
inductive JsonOutcome where
  | decodeErr (message : String)
  | ok (reason result : Option String) (isGoalSatisfied : Option Bool)
      (error content : Option String)
  | raises
deriving Repr, DecidableEq

/-- Replacement of every non-overlapping occurrence of `pat` (scanning
left to right, as Python `str.replace`) by `repl`, by structural
recursion on a character budget that bounds the remaining input. -/
def replaceFuel (pat repl : List Char) : Nat → List Char → List Char
  | 0, s => s
  | fuel + 1, s =>
    match s with
    | [] => []
    | c :: rest =>
      if pat.isPrefixOf s then
        repl ++ replaceFuel pat repl fuel (s.drop pat.length)
      else
        c :: replaceFuel pat repl fuel rest

/-- Python `s.replace(pat, repl)` for a non-empty pattern (the only
shape the source uses). -/
def pyReplace (s pat repl : String) : String :=
  ⟨replaceFuel pat.data repl.data s.data.length s.data⟩

/-- The code-fence stripping applied to the judge text,
`_res.replace('```json', '').replace('```', '')`: first all occurrences
of the json fence opener are removed, then all remaining fence
markers. -/
def stripFences (s : String) : String :=
  pyReplace (pyReplace s "```json" "") "```" ""

/-- The `for choice in messages.choices:` loop body of `_verify_goal`:
returns on the first choice that is truthy and has a truthy `message`;
falling off the end of the loop returns Python `None`. -/
def processChoices (name agentId : String) (jsonLoads : String → JsonOutcome) :
    List (Option Choice) → Except PyExn (Option GoalResult)
  | [] => .ok none
  | none :: rest => processChoices name agentId jsonLoads rest
  | some ch :: rest =>
    match ch.message with
    | none => processChoices name agentId jsonLoads rest
    | some msg =>
      let raw := stripFences (msg.content.getD "")
      match jsonLoads raw with
      | .ok reason result sat err cont =>
        .ok (some ⟨name, agentId, reason, result, sat, err, cont⟩)
      | .decodeErr ex =>
        .ok (some { GoalResult.base name agentId with
                      content := some raw,
                      error := some ("Cannot verify goal!\n" ++ ex) })
      | .raises => .error .typeError

/-- `Agent._verify_goal`: `if messages and messages.choices:` iterates
the choices (possibly falling through to Python `None`); otherwise
returns the `No results found!` GoalResult. -/
def verifyGoal (name agentId : String) (jsonLoads : String → JsonOutcome)
    (messages : Option ChatResponse) : Except PyExn (Option GoalResult) :=
  match messages with
  | some m =>
    if m.choices.isEmpty then
      .ok (some { GoalResult.base name agentId with
                    error := some "No results found!",
                    isGoalSatisfied := some false })
    else
      processChoices name agentId jsonLoads m.choices
  | none =>
    .ok (some { GoalResult.base name agentId with
                  error := some "No results found!",
                  isGoalSatisfied := some false })

/-! ## Agent.execute (src/superagentx/agent/agent.py, lines 230-280)

`for _retry in range(1, self.max_retry+1)` with one judge invocation
per attempt (each `_execute` calls `_verify_goal` exactly once, which
performs exactly one `achat_completion` call).  The judge outcome of
attempt `r` is modelled by `judge r`; the loop is recursion on the
number of remaining attempts, threading the attempt index.  The
returned `Nat` counts the attempts actually performed, i.e. the number
of judge invocations. -/

/-- Result of an `execute` call: a normal return (possibly Python
`None`, when the loop body never ran) or a raised exception. -/
inductive ExecOutcome where
  | ret (g : Option GoalResult)
  | exn (e : PyExn)
deriving Repr, DecidableEq

/-- The message of the early-stop signal raised by `Agent.execute`. -/
def stopMessage : String :=
  "Superagentx stopped forcefully since `stop` flag has been set!"

/-- One pass of the retry loop of `Agent.execute`, starting at attempt
index `a` with `fuel` attempts remaining and `last` the current value of
`_goal_result`.  Mirrors the source order of tests: truthy
`is_goal_satisfied` returns, `is_goal_satisfied is False` with the stop
flag raises `StopSuperAgentX`, otherwise the loop continues; a judge
attempt yielding Python `None` makes the attribute access
`_goal_result.is_goal_satisfied` raise `AttributeError`. -/
def executeLoop (judge : Nat → Except PyExn (Option GoalResult))
    (stopIfGoalNotSatisfied : Bool) :
    Nat → Nat → Option GoalResult → Nat × ExecOutcome
  | _, 0, last => (0, .ret last)
  | a, fuel + 1, _ =>
    match judge a with
    | .error e => (1, .exn e)
    | .ok none => (1, .exn (.attributeError "is_goal_satisfied"))
    | .ok (some g) =>
      if truthyOptBool g.isGoalSatisfied then
        (1, .ret (some g))
      else if g.isGoalSatisfied == some false && stopIfGoalNotSatisfied then
        (1, .exn (.stopSuperAgentX stopMessage g))
      else
        let step := executeLoop judge stopIfGoalNotSatisfied (a + 1) fuel (some g)
        (step.1 + 1, step.2)

/-- `Agent.execute`: `_goal_result = None`, then the retry loop over
`range(1, max_retry + 1)`.  `maxRetry` is an `int` in the source with no
validation, hence `Int` here; `range(1, n + 1)` performs
`max 0 n = n.toNat` iterations. -/
def execute (judge : Nat → Except PyExn (Option GoalResult))
    (stopIfGoalNotSatisfied : Bool) (maxRetry : Int) : Nat × ExecOutcome :=
  executeLoop judge stopIfGoalNotSatisfied 1 maxRetry.toNat none

/-! ## Engine (src/superagentx/agent/engine.py)

A capability handler is modelled as an association list from attribute
name to attribute value; `getattr(handler, name)` with no default raises
`AttributeError` when the name is absent.  The schema produced by
`llm.get_tool_json(func)` is modelled by the operation's name. -/

/-- A handler attribute: either a method/function operation (with a flag
recording `inspect.iscoroutinefunction` and its behaviour on a keyword
mapping, `none` modelling a falsy return) or some other attribute (for
which `inspect.ismethod(_func) or inspect.isfunction(_func)` is false). -/
inductive HandlerAttr where
  | func (isCoroutine : Bool) (call : List (String × String) → Option String)
  | nonFunc

/-- A capability handler: its attributes in `dir(handler)` order. -/
structure Handler where
  attrs : List (String × HandlerAttr)

/-- `getattr(handler, name)` without a default: `none` models a raised
`AttributeError`. -/
def Handler.getattr (h : Handler) (name : String) : Option HandlerAttr :=
  (h.attrs.find? (fun p => p.1 == name)).map (fun p => p.2)

/-- `dir(handler)`: the handler's attribute names. -/
def Handler.dirNames (h : Handler) : List String :=
  h.attrs.map (fun p => p.1)

/-- Python `name.split('.')[-1]`: the characters after the last dot (the
whole string when it has no dot). -/
def afterLastDot (s : String) : String :=
  ⟨s.data.foldl (fun acc c => if c = '.' then [] else acc ++ [c]) []⟩

/-- `Engine.__funcs_props`: for each name, take the part after the last
dot, `getattr` it on the handler (raising `AttributeError` when absent),
and keep a tool schema (modelled by the operation name) for every
attribute that is a method or function. -/
def funcsProps (h : Handler) : List String → Except PyExn (List String)
  | [] => .ok []
  | n :: rest =>
    let base := afterLastDot n
    match h.getattr base with
    | none => .error (.attributeError base)
    | some (.func _ _) =>
      (funcsProps h rest).map (fun props => base :: props)
    | some .nonFunc => funcsProps h rest

/-- `Engine._construct_tools`: raise `InvalidHandler` when `dir(handler)`
is falsy; resolve the explicit allow-list first when it is truthy
(`self.tools` non-`None` and non-empty); when that produced no tool
schemas, fall back to resolving every name in `dir(handler)`. -/
def constructTools (h : Handler) (tools : Option (List String)) :
    Except PyExn (List String) :=
  let funcs := h.dirNames
  if funcs.isEmpty then
    .error (.invalidHandler "handler")
  else
    let fromList : Except PyExn (List String) :=
      match tools with
      | some ts => if ts.isEmpty then .ok [] else funcsProps h ts
      | none => .ok []
    match fromList with
    | .error e => .error e
    | .ok props => if props.isEmpty then funcsProps h funcs else .ok props

/-- A tool call requested by the model: `tool.tool_type`, `tool.name`,
and `tool.arguments` (a keyword mapping, possibly `None`). -/
structure ToolCall where
  toolType : String
  name : String
  arguments : Option (List (String × String))

/-- A message of the model's tool-augmented completion: either a list of
tool calls (truthy when non-empty) or a plain `content` payload. -/
structure EngineMessage where
  toolCalls : List ToolCall
  content : Option String

/-- Dispatch of one tool call in `Engine.start`:
`func = getattr(self.handler, tool.name)` raises `AttributeError` when
the name is absent; an attribute that is not a method/function is
skipped; a present operation is invoked with `tool.arguments or {}` and
awaited whether or not it is a coroutine function; a falsy result
contributes nothing, a truthy result is appended after the optional
output parser. -/
def dispatchToolCall (h : Handler) (outputParser : Option (String → String))
    (acc : List (Option String)) (tc : ToolCall) :
    Except PyExn (List (Option String)) :=
  if tc.toolType == "function" then
    match h.getattr tc.name with
    | none => .error (.attributeError tc.name)
    | some .nonFunc => .ok acc
    | some (.func _ call) =>
      match call (tc.arguments.getD []) with
      | none => .ok acc
      | some res =>
        match outputParser with
        | none => .ok (acc ++ [some res])
        | some p => .ok (acc ++ [some (p res)])
  else
    .ok acc

/-- The tool calls of one message, dispatched left to right. -/
def dispatchToolCalls (h : Handler) (outputParser : Option (String → String)) :
    List (Option String) → List ToolCall → Except PyExn (List (Option String))
  | acc, [] => .ok acc
  | acc, tc :: rest =>
    match dispatchToolCall h outputParser acc tc with
    | .error e => .error e
    | .ok acc2 => dispatchToolCalls h outputParser acc2 rest

/-- The result-collection loop of `Engine.start` over the completion
messages: a message with truthy `tool_calls` dispatches them; otherwise
its `content` is appended verbatim (even when `None`). -/
def collectResults (h : Handler) (outputParser : Option (String → String)) :
    List (Option String) → List EngineMessage → Except PyExn (List (Option String))
  | acc, [] => .ok acc
  | acc, m :: rest =>
    match (if m.toolCalls.isEmpty then .ok (acc ++ [m.content])
           else dispatchToolCalls h outputParser acc m.toolCalls :
           Except PyExn (List (Option String))) with
    | .error e => .error e
    | .ok acc2 => collectResults h outputParser acc2 rest

/-- `Engine.start`: construct the tool schemas (its exceptions
propagate), model the tool-augmented completion by the input
`completion` (the model port is external), raise `ToolError` when it is
falsy (`None` or empty), and otherwise collect the results. -/
def engineStart (h : Handler) (tools : Option (List String))
    (outputParser : Option (String → String))
    (completion : Option (List EngineMessage)) :
    Except PyExn (List (Option String)) :=
  match constructTools h tools with
  | .error e => .error e
  | .ok _ =>
    match completion with
    | none => .error (.toolError "Tool not found for the inputs!")
    | some msgs =>
      if msgs.isEmpty then .error (.toolError "Tool not found for the inputs!")
      else collectResults h outputParser [] msgs

/-! ## AgentXPipe._flow (src/superagentx/agentxpipe.py, lines 170-210)

Each element of `self.agents` is a single Agent or a parallel group; the
outcome of the corresponding `execute` call (a returned
`GoalResult`-or-`None`, or a raised exception) is an input of the model,
since it is produced by the Agent layer.  A memory record written by
`add_memory` keeps the `role`, `data` and `reason` fields. -/

/-- The `execute` outcomes of one element of the pipe's agent sequence:
a single Agent's outcome, or the outcomes of a parallel group. -/
inductive StepAgents where
  | single (r : Except PyExn (Option GoalResult))
  | group (rs : List (Except PyExn (Option GoalResult)))

/-- The value `_res` of one step when no exception was raised: a single
Agent's returned value or the list gathered from a group. -/
inductive StepValue where
  | single (g : Option GoalResult)
  | group (gs : List (Option GoalResult))
deriving Repr, DecidableEq

/-- A record appended to the Memory port by `add_memory`. -/
structure MemoryRecord where
  role : Option String
  data : Option String
  reason : Option String
deriving Repr, DecidableEq

/-- Sequencing of a parallel group under `asyncio.gather`: all members
run; a raising member propagates its exception out of the step (members
are inspected in declared order). -/
def gatherGroup : List (Except PyExn (Option GoalResult)) →
    Except PyExn (List (Option GoalResult))
  | [] => .ok []
  | .error e :: _ => .error e
  | .ok g :: rest => (gatherGroup rest).map (fun gs => g :: gs)

/-- The awaited value of one step of `_flow`. -/
def stepOutcome : StepAgents → Except PyExn StepValue
  | .single (.error e) => .error e
  | .single (.ok g) => .ok (.single g)
  | .group rs => (gatherGroup rs).map .group

/-- The loop body sequence of `AgentXPipe._flow`, with `results` and the
memory log accumulated so far.  After a step completes, when memory is
enabled the code evaluates `_res.result`: an `AttributeError` when
`_res` is the gathered list of a parallel group, or Python `None`;
otherwise exactly one assistant record
`{role: "assistant", content: yaml.dump(_res.result), reason: _res.reason}`
is appended via `add_memory`.  No exception is caught anywhere in
`_flow`: a raising step (in particular `StopSuperAgentX`) propagates and
the collected `results` are discarded. -/
def flowAux (memoryEnabled : Bool) (yamlDump : Option String → String) :
    List StepAgents → List StepValue → List MemoryRecord →
    Except PyExn (List StepValue × List MemoryRecord)
  | [], results, mem => .ok (results, mem)
  | st :: rest, results, mem =>
    match stepOutcome st with
    | .error e => .error e
    | .ok v =>
      if memoryEnabled then
        match v with
        | .single (some g) =>
          flowAux memoryEnabled yamlDump rest (results ++ [v])
            (mem ++ [⟨some "assistant", some (yamlDump g.result), g.reason⟩])
        | .single none => .error (.attributeError "result")
        | .group _ => .error (.attributeError "result")
      else
        flowAux memoryEnabled yamlDump rest (results ++ [v]) mem

/-- `AgentXPipe._flow` (and `flow`, which merely delegates): the loop
from empty accumulators. -/
def pipeFlow (memoryEnabled : Bool) (yamlDump : Option String → String)
    (steps : List StepAgents) :
    Except PyExn (List StepValue × List MemoryRecord) :=
  flowAux memoryEnabled yamlDump steps [] []

/-! ## Construction-time defaults (Agent.__init__, AgentXPipe.__init__)

In Python a parameter default such as `agent_id: str | None =
uuid.uuid4().hex` is evaluated once, when the `def` statement executes
(at class-definition/module-import time), not at each call.  The uuid
source is modelled as a counter drawing pairwise-distinct hex strings. -/

/-- State of the uuid source. -/
structure UuidState where
  counter : Nat
deriving Repr, DecidableEq

/-- One draw of `uuid.uuid4().hex`: a fresh string plus the next state. -/
def uuid4hex (s : UuidState) : String × UuidState :=
  (Nat.toDigits 16 s.counter |>.asString, ⟨s.counter + 1⟩)

/-- The values computed when the `agent.py` and `agentxpipe.py` class
bodies execute: the single evaluation of each `uuid.uuid4().hex`
parameter default. -/
structure ClassDefaults where
  agentIdDefault : String
  pipeIdDefault : String
deriving Repr, DecidableEq

/-- Module import: the default for `Agent.__init__`'s `agent_id` and the
default for `AgentXPipe.__init__`'s `pipe_id` are each drawn exactly
once. -/
def defineClasses (s : UuidState) : ClassDefaults × UuidState :=
  let a := uuid4hex s
  let p := uuid4hex a.2
  (⟨a.1, p.1⟩, p.2)

/-- `Agent.__init__`'s binding of `self.agent_id`: the argument when one
was supplied, otherwise the class-definition-time default.  No fresh
uuid is drawn at construction time, so the uuid state is unchanged. -/
def agentInitId (cls : ClassDefaults) (agentId : Option String)
    (s : UuidState) : String × UuidState :=
  (agentId.getD cls.agentIdDefault, s)

/-- `AgentXPipe.__init__`'s binding of `self.pipe_id`, likewise. -/
def pipeInitId (cls : ClassDefaults) (pipeId : Option String)
    (s : UuidState) : String × UuidState :=
  (pipeId.getD cls.pipeIdDefault, s)

/-- `Agent.__init__`'s binding of `self.max_retry`: the argument (default
5) is stored with no validation. -/
def agentInitMaxRetry (maxRetry : Option Int) : Int :=
  maxRetry.getD 5

/-! ## Helper lemmas about the retry loop -/

/-- Attempt `i` falls through to the next retry: the judge produced a
GoalResult that is neither truthily satisfied nor hits the stop
branch. -/
def attemptContinues (judge : Nat → Except PyExn (Option GoalResult))
    (stop : Bool) (i : Nat) : Prop :=
  ∃ g, judge i = .ok (some g) ∧ truthyOptBool g.isGoalSatisfied = false ∧
    (g.isGoalSatisfied == some false && stop) = false

theorem executeLoop_continue (judge : Nat → Except PyExn (Option GoalResult))
    (stop : Bool) (a fuel : Nat) (last : Option GoalResult) (g : GoalResult)
    (hg : judge a = .ok (some g)) (ht : truthyOptBool g.isGoalSatisfied = false)
    (hs : (g.isGoalSatisfied == some false && stop) = false) :
    executeLoop judge stop a (fuel + 1) last =
      ((executeLoop judge stop (a + 1) fuel (some g)).1 + 1,
       (executeLoop judge stop (a + 1) fuel (some g)).2) := by
  simp [executeLoop, hg, ht, hs]

theorem executeLoop_all_continue (judge : Nat → Except PyExn (Option GoalResult))
    (stop : Bool) (m : Nat) :
    ∀ (a : Nat) (last : Option GoalResult) (gN : GoalResult),
      judge (a + m) = .ok (some gN) →
      (∀ i, a ≤ i → i ≤ a + m → attemptContinues judge stop i) →
      executeLoop judge stop a (m + 1) last = (m + 1, .ret (some gN)) := by
  induction m with
  | zero =>
    intro a last gN hg h
    obtain ⟨g, hg', ht, hs⟩ := h a le_rfl (by omega)
    rw [Nat.add_zero] at hg
    rw [hg] at hg'
    obtain rfl : gN = g := by simpa using hg'
    rw [executeLoop_continue judge stop a 0 last gN hg ht hs]
    simp [executeLoop]
  | succ m ih =>
    intro a last gN hg h
    obtain ⟨g, hg', ht, hs⟩ := h a le_rfl (by omega)
    rw [executeLoop_continue judge stop a (m + 1) last g hg' ht hs]
    have hstep := ih (a + 1) (some g) gN
      (by rw [show a + 1 + m = a + (m + 1) by omega]; exact hg)
      (fun i h1 h2 => h i (by omega) (by omega))
    rw [hstep]

theorem executeLoop_hit (judge : Nat → Except PyExn (Option GoalResult))
    (stop : Bool) (m : Nat) :
    ∀ (a fuel : Nat) (last : Option GoalResult) (g : GoalResult),
      judge (a + m) = .ok (some g) →
      truthyOptBool g.isGoalSatisfied = true →
      (∀ i, a ≤ i → i < a + m → attemptContinues judge stop i) →
      m < fuel →
      executeLoop judge stop a fuel last = (m + 1, .ret (some g)) := by
  induction m with
  | zero =>
    intro a fuel last g hg ht _ hfuel
    obtain ⟨f, rfl⟩ : ∃ f, fuel = f + 1 := ⟨fuel - 1, by omega⟩
    rw [Nat.add_zero] at hg
    simp [executeLoop, hg, ht]
  | succ m ih =>
    intro a fuel last g hg ht h hfuel
    obtain ⟨f, rfl⟩ : ∃ f, fuel = f + 1 := ⟨fuel - 1, by omega⟩
    obtain ⟨g0, hg0, ht0, hs0⟩ := h a le_rfl (by omega)
    rw [executeLoop_continue judge stop a f last g0 hg0 ht0 hs0]
    have hstep := ih (a + 1) f (some g0) g
      (by rw [show a + 1 + m = a + (m + 1) by omega]; exact hg) ht
      (fun i h1 h2 => h i (by omega) (by omega)) (by omega)
    rw [hstep]

theorem executeLoop_stopRaise (judge : Nat → Except PyExn (Option GoalResult))
    (m : Nat) :
    ∀ (a fuel : Nat) (last : Option GoalResult) (g : GoalResult),
      judge (a + m) = .ok (some g) →
      g.isGoalSatisfied = some false →
      (∀ i, a ≤ i → i < a + m → attemptContinues judge true i) →
      m < fuel →
      executeLoop judge true a fuel last =
        (m + 1, .exn (.stopSuperAgentX stopMessage g)) := by
  induction m with
  | zero =>
    intro a fuel last g hg hfalse _ hfuel
    obtain ⟨f, rfl⟩ : ∃ f, fuel = f + 1 := ⟨fuel - 1, by omega⟩
    rw [Nat.add_zero] at hg
    simp [executeLoop, hg, truthyOptBool, hfalse]
  | succ m ih =>
    intro a fuel last g hg hfalse h hfuel
    obtain ⟨f, rfl⟩ : ∃ f, fuel = f + 1 := ⟨fuel - 1, by omega⟩
    obtain ⟨g0, hg0, ht0, hs0⟩ := h a le_rfl (by omega)
    rw [executeLoop_continue judge true a f last g0 hg0 ht0 hs0]
    have hstep := ih (a + 1) f (some g0) g
      (by rw [show a + 1 + m = a + (m + 1) by omega]; exact hg) hfalse
      (fun i h1 h2 => h i (by omega) (by omega)) (by omega)
    rw [hstep]

/-! ## Concrete values used by witnesses and counterexamples -/

/-- A GoalResult with the satisfaction flag unset. -/
def goalUnset : GoalResult := GoalResult.base "Agent" "id0"

/-- A GoalResult judged explicitly unsatisfied. -/
def goalUnsat : GoalResult :=
  { GoalResult.base "Agent" "id0" with isGoalSatisfied := some false }

/-- A GoalResult judged satisfied, carrying a result payload. -/
def goalOk : GoalResult :=
  { GoalResult.base "Agent" "id0" with
      isGoalSatisfied := some true, result := some "done",
      reason := some "ok" }

/-- A judge that always produces a GoalResult with the satisfaction flag
unset. -/
def judgeConst : Nat → Except PyExn (Option GoalResult) :=
  fun _ => .ok (some goalUnset)

/-- A judge that reports satisfaction exactly on attempt 2. -/
def judgeSatAt2 : Nat → Except PyExn (Option GoalResult) :=
  fun i =>
    .ok (some { GoalResult.base "Agent" "id0" with isGoalSatisfied := some (i == 2) })

/-- A judge that always reports the goal explicitly unsatisfied. -/
def judgeFalse : Nat → Except PyExn (Option GoalResult) :=
  fun _ => .ok (some goalUnsat)

/-- C2: for an Agent with `max_retry = N ≥ 1` and
`stop_if_goal_not_satisfied = false`, if the judge first reports
satisfaction on attempt `k ≤ N` then `execute` performs exactly `k`
judge invocations and returns that attempt's GoalResult, and if no
attempt is judged satisfied then `execute` performs exactly `N` judge
invocations and returns the Nth (last) GoalResult. -/
theorem agent_execute_judge_invocation_counts
    (judge : Nat → Except PyExn (Option GoalResult)) (N : Nat) (hN : 1 ≤ N) :
    (∀ k g, 1 ≤ k → k ≤ N → judge k = .ok (some g) →
      truthyOptBool g.isGoalSatisfied = true →
      (∀ i, 1 ≤ i → i < k → ∃ gi, judge i = .ok (some gi) ∧
        truthyOptBool gi.isGoalSatisfied = false) →
      execute judge false (N : Int) = (k, .ret (some g))) ∧
    (∀ gN, judge N = .ok (some gN) →
      (∀ i, 1 ≤ i → i ≤ N → ∃ gi, judge i = .ok (some gi) ∧
        truthyOptBool gi.isGoalSatisfied = false) →
      execute judge false (N : Int) = (N, .ret (some gN))) := by
  constructor
  · intro k g hk1 hkN hg htrue hpre
    have hres := executeLoop_hit judge false (k - 1) 1 N none g
      (by rw [show 1 + (k - 1) = k by omega]; exact hg) htrue
      (fun i h1 h2 => by
        obtain ⟨gi, hgi, hti⟩ := hpre i h1 (by omega)
        exact ⟨gi, hgi, hti, by simp⟩)
      (by omega)
    rw [show (k - 1) + 1 = k by omega] at hres
    simpa [execute] using hres
  · intro gN hg hall
    have hres := executeLoop_all_continue judge false (N - 1) 1 none gN
      (by rw [show 1 + (N - 1) = N by omega]; exact hg)
      (fun i h1 h2 => by
        obtain ⟨gi, hgi, hti⟩ := hall i h1 (by omega)
        exact ⟨gi, hgi, hti, by simp⟩)
    rw [show (N - 1) + 1 = N by omega] at hres
    simpa [execute] using hres

/-- C2 witness: with a judge first satisfied on attempt 2 and
`max_retry = 3`, `execute` performs exactly 2 judge invocations and
returns that attempt's GoalResult. -/
theorem agent_execute_judge_invocation_counts_witness :
    execute judgeSatAt2 false (3 : Int) =
      (2, .ret (some { GoalResult.base "Agent" "id0" with
                         isGoalSatisfied := some true })) := by
  refine (agent_execute_judge_invocation_counts judgeSatAt2 3 (by omega)).1
    2 _ (by omega) (by omega) rfl rfl ?_
  intro i h1 h2
  have hi : i = 1 := by omega
  subst hi
  exact ⟨_, rfl, rfl⟩

/-- C7: with `stop_if_goal_not_satisfied = true`, when attempt `k`'s
judgement is explicitly unsatisfied (and the earlier attempts left the
flag unset, hence continued), `execute` raises the early-stop signal
carrying that attempt's GoalResult instead of retrying or returning. -/
theorem agent_execute_stop_flag_raises
    (judge : Nat → Except PyExn (Option GoalResult)) (N k : Nat) (g : GoalResult)
    (hk1 : 1 ≤ k) (hkN : k ≤ N)
    (hg : judge k = .ok (some g)) (hfalse : g.isGoalSatisfied = some false)
    (hpre : ∀ i, 1 ≤ i → i < k → ∃ gi, judge i = .ok (some gi) ∧
      gi.isGoalSatisfied = none) :
    execute judge true (N : Int) = (k, .exn (.stopSuperAgentX stopMessage g)) := by
  have hres := executeLoop_stopRaise judge (k - 1) 1 N none g
    (by rw [show 1 + (k - 1) = k by omega]; exact hg) hfalse
    (fun i h1 h2 => by
      obtain ⟨gi, hgi, hti⟩ := hpre i h1 (by omega)
      exact ⟨gi, hgi, by simp [truthyOptBool, hti], by simp [hti]⟩)
    (by omega)
  rw [show (k - 1) + 1 = k by omega] at hres
  simpa [execute] using hres

/-- C7 witness: a judge explicitly unsatisfied on attempt 1 with the
stop flag set makes `execute` raise the early-stop signal carrying that
GoalResult. -/
theorem agent_execute_stop_flag_raises_witness :
    execute judgeFalse true (2 : Int) =
      (1, .exn (.stopSuperAgentX stopMessage goalUnsat)) := by
  refine agent_execute_stop_flag_raises judgeFalse 2 1 goalUnsat
    (by omega) (by omega) rfl rfl ?_
  intro i h1 h2
  exact absurd h1 (by omega)

/-- C9: when every attempt's GoalResult leaves `is_goal_satisfied`
unset, `execute` with the stop flag set never raises the early-stop
signal: it proceeds through all `N` attempts and returns the last
GoalResult, because the stop branch requires the flag to be exactly
`False`. -/
theorem agent_execute_unset_satisfaction_no_stop
    (judge : Nat → Except PyExn (Option GoalResult)) (N : Nat) (hN : 1 ≤ N)
    (gN : GoalResult) (hlast : judge N = .ok (some gN))
    (hall : ∀ i, 1 ≤ i → i ≤ N → ∃ gi, judge i = .ok (some gi) ∧
      gi.isGoalSatisfied = none) :
    execute judge true (N : Int) = (N, .ret (some gN)) := by
  have hres := executeLoop_all_continue judge true (N - 1) 1 none gN
    (by rw [show 1 + (N - 1) = N by omega]; exact hlast)
    (fun i h1 h2 => by
      obtain ⟨gi, hgi, hti⟩ := hall i h1 (by omega)
      exact ⟨gi, hgi, by simp [truthyOptBool, hti], by simp [hti]⟩)
  rw [show (N - 1) + 1 = N by omega] at hres
  simpa [execute] using hres

/-- C9 witness: two attempts with the satisfaction flag unset and the
stop flag set return the last GoalResult normally. -/
theorem agent_execute_unset_satisfaction_no_stop_witness :
    execute judgeConst true (2 : Int) = (2, .ret (some goalUnset)) := by
  refine agent_execute_unset_satisfaction_no_stop judgeConst 2 (by omega)
    goalUnset rfl ?_
  intro i h1 h2
  exact ⟨goalUnset, rfl, rfl⟩

/-- C8 counterexample: `Agent.__init__` stores `max_retry = 0` without
validation, violating the claimed invariant `max_retry ≥ 1`, and
`execute` on such an Agent performs no attempt and returns Python
`None`. -/
theorem agent_max_retry_unvalidated_cex :
    agentInitMaxRetry (some 0) = 0 ∧
    execute judgeConst false (agentInitMaxRetry (some 0)) = (0, .ret none) :=
  ⟨rfl, rfl⟩

/-- C8 amended: construction stores `max_retry` unvalidated (so the
invariant `max_retry ≥ 1` is not enforced); for every Agent whose
`max_retry` is at least 1, after `max_retry` attempts with no satisfied
goal and no stop request `execute` returns the last GoalResult produced,
never `None`. -/
theorem agent_execute_max_retry_amended :
    (∀ v : Int, agentInitMaxRetry (some v) = v) ∧
    (∀ (judge : Nat → Except PyExn (Option GoalResult)) (mr : Int)
      (gN : GoalResult), 1 ≤ mr → judge mr.toNat = .ok (some gN) →
      (∀ i, 1 ≤ i → i ≤ mr.toNat → ∃ gi, judge i = .ok (some gi) ∧
        truthyOptBool gi.isGoalSatisfied = false) →
      execute judge false mr = (mr.toNat, .ret (some gN))) := by
  constructor
  · intro v
    rfl
  · intro judge mr gN hmr hlast hall
    have hres := executeLoop_all_continue judge false (mr.toNat - 1) 1 none gN
      (by rw [show 1 + (mr.toNat - 1) = mr.toNat by omega]; exact hlast)
      (fun i h1 h2 => by
        obtain ⟨gi, hgi, hti⟩ := hall i h1 (by omega)
        exact ⟨gi, hgi, hti, by simp⟩)
    rw [show (mr.toNat - 1) + 1 = mr.toNat by omega] at hres
    simpa [execute] using hres

/-- C8 amended witness: a constructed `max_retry` of 2 with a judge
whose GoalResults never satisfy the goal makes `execute` return the
last GoalResult after exactly 2 attempts. -/
theorem agent_execute_max_retry_amended_witness :
    agentInitMaxRetry (some 7) = 7 ∧
    execute judgeConst false (2 : Int) = (2, .ret (some goalUnset)) := by
  refine ⟨agent_execute_max_retry_amended.1 7, ?_⟩
  refine agent_execute_max_retry_amended.2 judgeConst 2 goalUnset
    (by omega) rfl ?_
  intro i h1 h2
  exact ⟨goalUnset, rfl, rfl⟩

/-- C1 counterexample: a three-step pipe whose second Agent raises the
early-stop signal.  `flow` does not return the outcomes collected
through the terminating step: the uncaught signal propagates to the
caller (the evaluation is an exception, not a result list). -/
theorem pipe_flow_early_stop_cex :
    pipeFlow false (fun _ => "") [
      .single (.ok (some goalOk)),
      .single (.error (.stopSuperAgentX stopMessage goalUnsat)),
      .single (.ok (some goalOk))] =
      .error (.stopSuperAgentX stopMessage goalUnsat) := rfl

/-- C1 amended: `AgentXPipe._flow` contains no handler for the
early-stop signal: whenever the step an Agent raises it in is reached
(with any outcomes already collected), `_flow` propagates the signal,
still carrying its GoalResult, to `flow`'s caller, and the collected
outcomes are not returned. -/
theorem pipe_flow_early_stop_propagates (memoryEnabled : Bool)
    (yamlDump : Option String → String) (st : StepAgents)
    (rest : List StepAgents) (results : List StepValue)
    (mem : List MemoryRecord) (msg : String) (g : GoalResult)
    (he : stepOutcome st = .error (.stopSuperAgentX msg g)) :
    flowAux memoryEnabled yamlDump (st :: rest) results mem =
      .error (.stopSuperAgentX msg g) := by
  simp [flowAux, he]

/-- C1 amended witness: a raising second step with one outcome already
collected propagates the signal out of the flow. -/
theorem pipe_flow_early_stop_propagates_witness :
    flowAux false (fun _ => "")
      [.single (.error (.stopSuperAgentX stopMessage goalUnsat))]
      [.single (some goalOk)] [] =
      .error (.stopSuperAgentX stopMessage goalUnsat) :=
  pipe_flow_early_stop_propagates false (fun _ => "") _ [] _ [] _ _ rfl

/-- C6: at the failing input — a memory-enabled pipe whose step is a
parallel group of two Agents, both concluding with a GoalResult — the
flow evaluates `_res.result` on the list gathered from the group and
raises `AttributeError`; no assistant memory record is appended. -/
theorem pipe_flow_memory_group_attribute_error :
    pipeFlow true (fun _ => "")
      [.group [.ok (some goalOk), .ok (some goalUnsat)]] =
      .error (.attributeError "result") := rfl

/-- A concrete handler exposing the single operation `search`. -/
def handlerSearch : Handler :=
  ⟨[("search", .func false (fun _ => some "R"))]⟩

/-- C3: at the failing input — a completion whose message carries a
function tool call named `lookup` against a handler exposing only
`search` — `Engine.start` evaluates `getattr(self.handler, tool.name)`
without a default and raises `AttributeError` instead of skipping the
unknown operation. -/
theorem engine_unknown_tool_attribute_error :
    engineStart handlerSearch none none
      (some [⟨[⟨"function", "lookup", none⟩], none⟩]) =
      .error (.attributeError "lookup") := rfl

/-- A handler with a non-callable attribute and one operation. -/
def handlerMixed : Handler :=
  ⟨[("data", .nonFunc), ("op_a", .func false (fun _ => some "A"))]⟩

/-- A handler none of whose attributes is a method or function. -/
def handlerNoFuncs : Handler := ⟨[("data", .nonFunc)]⟩

/-- C4 counterexample: with the explicit allow-list `["data"]` (whose
only name is a non-callable attribute) the Engine resolves `op_a`, an
operation outside the allow-list; and when resolution yields zero
operations on a handler with a non-empty attribute listing, the Engine
returns an empty tool list instead of failing with `InvalidHandler`. -/
theorem engine_construct_tools_cex :
    constructTools handlerMixed (some ["data"]) = .ok ["op_a"] ∧
    constructTools handlerNoFuncs none = .ok [] :=
  ⟨rfl, rfl⟩

theorem list_isEmpty_false {α : Type} {l : List α} (h : l ≠ []) :
    l.isEmpty = false := by
  cases l with
  | nil => exact absurd rfl h
  | cons a t => rfl

/-- C4 amended: `InvalidHandler` is raised exactly when `dir(handler)`
is empty; a truthy allow-list is resolved first and used when it yields
at least one tool schema, but when it yields none the Engine falls back
to resolving every attribute of the handler; and a resolution yielding
zero tool schemas makes `start` proceed to the completion request with
an empty tool list rather than fail. -/
theorem engine_construct_tools_amended (h : Handler)
    (tools : Option (List String)) :
    (h.dirNames = [] → constructTools h tools = .error (.invalidHandler "handler")) ∧
    (∀ ts props, h.dirNames ≠ [] → tools = some ts → ts ≠ [] →
      funcsProps h ts = .ok props → props ≠ [] →
      constructTools h tools = .ok props) ∧
    (∀ ts, h.dirNames ≠ [] → tools = some ts → ts ≠ [] →
      funcsProps h ts = .ok [] →
      constructTools h tools = funcsProps h h.dirNames) ∧
    (tools = none → h.dirNames ≠ [] →
      constructTools h tools = funcsProps h h.dirNames) ∧
    (∀ parser msgs, msgs ≠ [] → constructTools h tools = .ok [] →
      engineStart h tools parser (some msgs) = collectResults h parser [] msgs) := by
  refine ⟨?_, ?_, ?_, ?_, ?_⟩
  · intro hdir
    simp [constructTools, hdir]
  · intro ts props hdir hts htsne hprops hpropsne
    rw [hts] at *
    simp [constructTools, list_isEmpty_false hdir, list_isEmpty_false htsne,
      hprops, list_isEmpty_false hpropsne]
  · intro ts hdir hts htsne hprops
    rw [hts] at *
    simp [constructTools, list_isEmpty_false hdir, list_isEmpty_false htsne,
      hprops]
  · intro hts hdir
    rw [hts] at *
    simp [constructTools, list_isEmpty_false hdir]
  · intro parser msgs hmsgs hct
    simp [engineStart, hct, list_isEmpty_false hmsgs]

/-- C4 amended witness: the allow-list `["op_a"]` resolves to its own
operation and is used; a handler with an empty attribute listing fails
with `InvalidHandler`; and a zero-schema resolution lets `start` proceed
to result collection. -/
theorem engine_construct_tools_amended_witness :
    constructTools handlerMixed (some ["op_a"]) = .ok ["op_a"] ∧
    constructTools (⟨[]⟩ : Handler) none = .error (.invalidHandler "handler") ∧
    engineStart handlerNoFuncs none none (some [⟨[], some "text"⟩]) =
      collectResults handlerNoFuncs none [] [⟨[], some "text"⟩] := by
  refine ⟨?_, ?_, ?_⟩
  · exact (engine_construct_tools_amended handlerMixed (some ["op_a"])).2.1
      ["op_a"] ["op_a"] (by simp [Handler.dirNames, handlerMixed]) rfl
      (by simp) rfl (by simp)
  · exact (engine_construct_tools_amended (⟨[]⟩ : Handler) none).1 rfl
  · exact (engine_construct_tools_amended handlerNoFuncs none).2.2.2.2
      none [⟨[], some "text"⟩] (by simp) rfl

/-- A choices-list entry that the `if choice and choice.message:` guard
rejects: a `None` entry, or a choice whose `message` is `None`. -/
def entryNoMessage : Option Choice → Bool
  | none => true
  | some c => c.message.isNone

theorem processChoices_skips (name agentId : String)
    (jsonLoads : String → JsonOutcome) (front l : List (Option Choice))
    (h : ∀ c ∈ front, entryNoMessage c = true) :
    processChoices name agentId jsonLoads (front ++ l) =
      processChoices name agentId jsonLoads l := by
  induction front with
  | nil => rfl
  | cons c front ih =>
    have hc := h c (by simp)
    have hrest : ∀ x ∈ front, entryNoMessage x = true :=
      fun x hx => h x (by simp [hx])
    cases c with
    | none => simpa [processChoices] using ih hrest
    | some ch =>
      cases hm : ch.message with
      | none => simpa [processChoices, hm] using ih hrest
      | some m => simp [entryNoMessage, hm] at hc

/-- C5 counterexample: a judge response whose choices list is non-empty
but carries no message (here the single entry is `None`) makes
`_verify_goal` fall off the end of its loop and return Python `None`
instead of a GoalResult. -/
theorem verify_goal_returns_none_cex :
    verifyGoal "Agent" "id0" (fun _ => .decodeErr "bad")
      (some ⟨[none]⟩) = .ok none := rfl

/-- C5 amended: goal verification yields a GoalResult when the judge
response is absent or has an empty choices list (`error = "No results
found!"`, `is_goal_satisfied = false`) and when some choice carries a
message — parse success builds the GoalResult from the parsed fields;
parse failure sets `error` to the failure description and `content` to
the (fence-stripped) raw text with `is_goal_satisfied` left unset, hence
falsy.  However a non-empty response none of whose choices carries a
message returns Python `None`, and message content that parses as valid
non-mapping JSON raises an uncaught error. -/
theorem verify_goal_shapes_amended (name agentId : String)
    (jsonLoads : String → JsonOutcome) :
    (verifyGoal name agentId jsonLoads none =
      .ok (some { GoalResult.base name agentId with
                    error := some "No results found!",
                    isGoalSatisfied := some false })) ∧
    (verifyGoal name agentId jsonLoads (some ⟨[]⟩) =
      .ok (some { GoalResult.base name agentId with
                    error := some "No results found!",
                    isGoalSatisfied := some false })) ∧
    (∀ entries, entries ≠ [] → (∀ c ∈ entries, entryNoMessage c = true) →
      verifyGoal name agentId jsonLoads (some ⟨entries⟩) = .ok none) ∧
    (∀ front rest m reason result sat err cont,
      (∀ c ∈ front, entryNoMessage c = true) →
      jsonLoads (stripFences (m.content.getD "")) = .ok reason result sat err cont →
      verifyGoal name agentId jsonLoads
        (some ⟨front ++ some ⟨some m⟩ :: rest⟩) =
        .ok (some ⟨name, agentId, reason, result, sat, err, cont⟩)) ∧
    (∀ front rest m ex, (∀ c ∈ front, entryNoMessage c = true) →
      jsonLoads (stripFences (m.content.getD "")) = .decodeErr ex →
      verifyGoal name agentId jsonLoads
        (some ⟨front ++ some ⟨some m⟩ :: rest⟩) =
        .ok (some { GoalResult.base name agentId with
                      content := some (stripFences (m.content.getD "")),
                      error := some ("Cannot verify goal!\n" ++ ex) })) ∧
    (∀ front rest m, (∀ c ∈ front, entryNoMessage c = true) →
      jsonLoads (stripFences (m.content.getD "")) = .raises →
      verifyGoal name agentId jsonLoads
        (some ⟨front ++ some ⟨some m⟩ :: rest⟩) = .error .typeError) := by
  refine ⟨rfl, rfl, ?_, ?_, ?_, ?_⟩
  · intro entries hne hall
    have := processChoices_skips name agentId jsonLoads entries [] hall
    simpa [verifyGoal, list_isEmpty_false hne] using this
  · intro front rest m reason result sat err cont hfront hjson
    have hne : front ++ some ⟨some m⟩ :: rest ≠ [] := by simp
    rw [verifyGoal]
    simp only [list_isEmpty_false hne, Bool.false_eq_true, if_false]
    rw [processChoices_skips name agentId jsonLoads front _ hfront]
    simp [processChoices, hjson]
  · intro front rest m ex hfront hjson
    have hne : front ++ some ⟨some m⟩ :: rest ≠ [] := by simp
    rw [verifyGoal]
    simp only [list_isEmpty_false hne, Bool.false_eq_true, if_false]
    rw [processChoices_skips name agentId jsonLoads front _ hfront]
    simp [processChoices, hjson]
  · intro front rest m hfront hjson
    have hne : front ++ some ⟨some m⟩ :: rest ≠ [] := by simp
    rw [verifyGoal]
    simp only [list_isEmpty_false hne, Bool.false_eq_true, if_false]
    rw [processChoices_skips name agentId jsonLoads front _ hfront]
    simp [processChoices, hjson]

/-- C5 amended witness: a message-less choices list yields `None`, and a
message whose content fails to decode yields the parse-failure
GoalResult with the raw text preserved. -/
theorem verify_goal_shapes_amended_witness :
    verifyGoal "Agent" "id0" (fun _ => .decodeErr "bad")
      (some ⟨[some ⟨none⟩]⟩) = .ok none ∧
    verifyGoal "Agent" "id0" (fun _ => .decodeErr "bad")
      (some ⟨[some ⟨some ⟨some "oops"⟩⟩]⟩) =
      .ok (some { GoalResult.base "Agent" "id0" with
                    content := some (stripFences "oops"),
                    error := some ("Cannot verify goal!\n" ++ "bad") }) := by
  constructor
  · exact (verify_goal_shapes_amended "Agent" "id0"
      (fun _ => .decodeErr "bad")).2.2.1 [some ⟨none⟩] (by simp)
      (by intro c hc; simp at hc; subst hc; rfl)
  · exact (verify_goal_shapes_amended "Agent" "id0"
      (fun _ => .decodeErr "bad")).2.2.2.2.1 [] [] ⟨some "oops"⟩ "bad"
      (by intro c hc; simp at hc) rfl

/-- C10: two Agents constructed without an explicit `agent_id`, at any
two uuid-source states, receive the identical `agent_id` — the value
drawn once when the class body executed — and likewise two AgentXPipes
constructed without an explicit `pipe_id` share the class-definition-
time `pipe_id` default. -/
theorem default_ids_shared_across_constructions (s0 sA sB : UuidState) :
    (agentInitId (defineClasses s0).1 none sA).1 =
      (agentInitId (defineClasses s0).1 none sB).1 ∧
    (pipeInitId (defineClasses s0).1 none sA).1 =
      (pipeInitId (defineClasses s0).1 none sB).1 ∧
    (agentInitId (defineClasses s0).1 none sA).1 =
      (defineClasses s0).1.agentIdDefault ∧
    (pipeInitId (defineClasses s0).1 none sA).1 =
      (defineClasses s0).1.pipeIdDefault :=
  ⟨rfl, rfl, rfl, rfl⟩

end SuperAgentX
